import Mathlib

/-!
Shallow embedding of the planar OpenCV renderer of the `ros2-hsa` repository
(`hsa_visualization/hsa_visualization/planar_opencv_renderer.py`).

Modelling conventions:
- Python/JAX floating-point scalars are embedded as exact rationals `ℚ`.
- The transcendental functions `jnp.sin` and `jnp.cos` are abstracted as
  explicit function parameters `rsin rcos : ℚ → ℚ`, so every theorem below
  quantifies over them and holds in particular for the true sine and cosine.
- The externally supplied forward-kinematics functions and the external
  workspace-boundary provider (`get_operational_workspace_boundaries` from the
  `hsa_planar_control` package, outside this repository) are function
  parameters, exactly as they are opaque inputs in the source.
- Mutating OpenCV drawing calls on the shared image buffer become an ordered
  list of `DrawOp` scene primitives; the `onp.zeros((w, h, 3))` allocation
  becomes the `shape` field of the returned `RenderFrame`.
- A Python exception at construction time makes `robot_rendering_factory`
  return `none`; a Python exception inside `draw_robot_fn` (a size-0-axis
  access: empty sample or cap-length arrays, or an empty platform-dimension
  array with segments to draw) makes `draw_robot_fn` return `none`.  A
  nonempty but too-short platform-dimension array does not raise: JAX clamps
  out-of-bounds gather indices on a non-empty axis, so the last row is
  silently reused (`clampGet`).
- `RenderFrame.projLog` records, in chronological call order, every Cartesian
  point handed to the pixel projector `chi2u` / `batched_chi2u` during one
  frame, mirroring the projector call sites of `draw_robot_fn` in the source
  (workspace boundary, left rod, right rod, platform polygons, setpoint,
  attractor, end effector).
-/

namespace HsaViz

/-- BGR color triple as used by the OpenCV calls in the source. -/
abbrev Color : Type := ℕ × ℕ × ℕ

/-- Planar SE(2) pose `chi = (x, y, theta)` in meters/radians, the shape-(3)
arrays of the source. -/
structure Pose where
  x : ℚ
  y : ℚ
  theta : ℚ
deriving DecidableEq, Repr, Inhabited

/-- Geometry parameters: the entries of the `params` dictionary that
`planar_opencv_renderer.py` actually reads.  `l`, `lpc`, `ldc` are the
per-segment flexible, proximal-cap and distal-cap lengths, `pcudim` the
per-segment platform width/height pairs, `chiee_off` the first two components
of the end-effector offset pose. -/
structure GeometryParams where
  l : List ℚ
  lpc : List ℚ
  ldc : List ℚ
  pcudim : List (ℚ × ℚ)
  chiee_off : ℚ × ℚ
deriving DecidableEq, Repr, Inhabited

/-- Truncation toward zero, the semantics of the `dtype=jnp.int32` cast that
`chi2u` applies to `chi[:2] * ppm` (a float-to-int32 conversion truncates, it
does not round to nearest). -/
def truncToZero (q : ℚ) : ℤ :=
  if 0 ≤ q then ⌊q⌋ else ⌈q⌉

/-- Core of `chi2u` on a bare position: multiply by pixels-per-meter, cast to
int32 (truncation toward zero), negate the u offset when mounted inverted and
otherwise the v offset, then add the robot origin offset.  This is the body of
`chi2u` after it has dropped the orientation component via `chi[:2]`. -/
def p2u (ppm : ℚ) (inverted_coordinates : Bool) (origin : ℤ × ℤ)
    (p : ℚ × ℚ) : ℤ × ℤ :=
  let u_off := truncToZero (p.1 * ppm)
  let v_off := truncToZero (p.2 * ppm)
  let off : ℤ × ℤ :=
    if inverted_coordinates then (-u_off, v_off) else (u_off, -v_off)
  (origin.1 + off.1, origin.2 + off.2)

/-- The projector `chi2u` of the source: maps a Cartesian pose to integer
pixel coordinates, using only the position components `chi[:2]`. -/
def chi2u (ppm : ℚ) (inverted_coordinates : Bool) (origin : ℤ × ℤ)
    (chi : Pose) : ℤ × ℤ :=
  p2u ppm inverted_coordinates origin (chi.x, chi.y)

/-- The vmapped form `batched_chi2u`: the projector applied independently and
order-preservingly to each pose of an ordered sequence. -/
def batched_chi2u (ppm : ℚ) (inverted_coordinates : Bool) (origin : ℤ × ℤ)
    (chis : List Pose) : List (ℤ × ℤ) :=
  chis.map (chi2u ppm inverted_coordinates origin)

/-- Fixed pixel origin of the robot: `(w // 2, 0)` when mounted tip-down
(inverted coordinates), `(w // 2, h)` otherwise. -/
def uv_robot_origin (inverted_coordinates : Bool) (width height : ℕ) : ℤ × ℤ :=
  if inverted_coordinates then (((width / 2 : ℕ) : ℤ), 0)
  else (((width / 2 : ℕ) : ℤ), (height : ℤ))

/-- Complete named color palette selected once at factory construction. -/
structure Palette where
  background : Color
  base : Color
  backbone : Color
  rod : Color
  platform : Color
  end_effector : Color
  setpoint : Color
  attractor : Color
  ws_background : Color
  ws_boundary : Color
  active_attraction_axis : Color
deriving DecidableEq, Repr, Inhabited

/-- Palette chosen when `invert_colors` is true (black background). -/
def invertedPalette : Palette :=
  { background := (0, 0, 0)
    base := (255, 255, 255)
    backbone := (255, 0, 0)
    rod := (255, 0, 0)
    platform := (255, 0, 0)
    end_effector := (255, 255, 255)
    setpoint := (0, 0, 255)
    attractor := (82, 128, 3)
    ws_background := (70, 70, 70)
    ws_boundary := (255, 255, 255)
    active_attraction_axis := (255, 255, 255) }

/-- Palette chosen when `invert_colors` is false (white background). -/
def normalPalette : Palette :=
  { background := (255, 255, 255)
    base := (0, 0, 0)
    backbone := (255, 0, 0)
    rod := (0, 0, 0)
    platform := (0, 0, 0)
    end_effector := (255, 0, 0)
    setpoint := (0, 0, 255)
    attractor := (0, 255, 0)
    ws_background := (160, 160, 160)
    ws_boundary := (0, 0, 0)
    active_attraction_axis := (0, 0, 0) }

/-- Common length of two 1-D arrays under NumPy broadcasting, `none` when the
shapes are incompatible (the `ValueError` case of `lpc + l + ldc`). -/
def broadcastLen (n m : ℕ) : Option ℕ :=
  if n = m then some n
  else if n = 1 then some m
  else if m = 1 then some n
  else none

/-- Stretch a length-1 array to the broadcast length, leave others unchanged. -/
def bcastTo (xs : List ℚ) (n : ℕ) : List ℚ :=
  if xs.length = 1 then List.replicate n xs.headI else xs

/-- Elementwise NumPy addition of two 1-D arrays with broadcasting; `none`
models the `ValueError` raised on incompatible shapes. -/
def addBroadcast (xs ys : List ℚ) : Option (List ℚ) :=
  match broadcastLen xs.length ys.length with
  | some n => some (List.zipWith (fun a b => a + b) (bcastTo xs n) (bcastTo ys n))
  | none => none

/-- The `jnp.linspace(a, b, n)` sample vector (evenly spaced, endpoints
included for `n ≥ 2`, `[a]` for `n = 1`, empty for `n = 0`; the `n = 1` case
falls out of the formula because `ℚ` division by zero is zero). -/
def linspace (a b : ℚ) (n : ℕ) : List ℚ :=
  (List.range n).map (fun (i : ℕ) => a + (b - a) * (i : ℚ) / ((n : ℚ) - 1))

/-- Configuration-independent constants the factory closes over and the
per-frame function reuses.  Note that the cached workspace boundary
`ws_boundary_ps` is stored in Cartesian coordinates, exactly as in the source
(`ws_boundary_ps = jnp.concatenate([pee_min_ps, jnp.flip(pee_max_ps, axis=0)])`),
not in pixel coordinates. -/
structure RendererCache where
  num_segments : ℕ
  ppm : ℚ
  palette : Palette
  inverted_coordinates : Bool
  width : ℕ
  height : ℕ
  uv_robot_origin : ℤ × ℤ
  s_ps : List ℚ
  ws_boundary_ps : Option (List (ℚ × ℚ))
deriving DecidableEq, Repr, Inhabited

/-- The Cartesian workspace polygon the factory builds when the overlay is
enabled: min boundary concatenated with the reversed max boundary, where the
provider is queried with `end_effector_attached` derived from `chiee_off`. -/
def wsPolygon {Mat : Type} (provider : Mat → Bool → List (ℚ × ℚ) × List (ℚ × ℚ))
    (hsa_material : Mat) (params : GeometryParams) : List (ℚ × ℚ) :=
  let end_effector_attached : Bool :=
    if params.chiee_off = (0, 0) then false else true
  let bnds := provider hsa_material end_effector_attached
  bnds.1 ++ bnds.2.reverse

/-- The factory `robot_rendering_factory`, restricted to its construction-time
work: compute `num_segments`, pixels-per-meter, palette, pixel origin, the
arc-length sample vector, and (if enabled) the Cartesian workspace boundary
polygon.  `none` models a Python exception escaping the factory; the only
operation in its body that can raise is the broadcast sum
`params["lpc"] + params["l"] + params["ldc"]` inside the `ppm` computation.
No consistency check between `pcudim` (or any other per-segment array) and the
segment count is performed. -/
def robot_rendering_factory {Mat : Type}
    (provider : Mat → Bool → List (ℚ × ℚ) × List (ℚ × ℚ))
    (hsa_material : Mat) (params : GeometryParams)
    (width height : ℕ) (num_points : ℕ)
    (inverted_coordinates invert_colors draw_operational_workspace : Bool) :
    Option RendererCache :=
  match (addBroadcast params.lpc params.l).bind
      (fun s => addBroadcast s params.ldc) with
  | none => none
  | some total =>
    let num_segments := params.l.length
    let ppm : ℚ := (height : ℚ) / (2 * total.sum)
    let palette := if invert_colors then invertedPalette else normalPalette
    let origin := uv_robot_origin inverted_coordinates width height
    let s_ps := linspace 0 params.l.sum num_points
    let wsb : Option (List (ℚ × ℚ)) :=
      if draw_operational_workspace then
        some (wsPolygon provider hsa_material params)
      else none
    some
      { num_segments := num_segments
        ppm := ppm
        palette := palette
        inverted_coordinates := inverted_coordinates
        width := width
        height := height
        uv_robot_origin := origin
        s_ps := s_ps
        ws_boundary_ps := wsb }

/-- Type of the end-effector forward-kinematics input
`forward_kinematics_end_effector_fn(params, q)`. -/
abbrev FkEe : Type := GeometryParams → List ℚ → Pose

/-- Type of the virtual-backbone forward-kinematics input
`forward_kinematics_virtual_backbone_fn(params, q, s)`. -/
abbrev FkCurve : Type := GeometryParams → List ℚ → ℚ → Pose

/-- Type of the rod forward-kinematics input
`forward_kinematics_rod_fn(params, q, s, rod_idx)`. -/
abbrev FkRod : Type := GeometryParams → List ℚ → ℚ → ℕ → Pose

/-- Type of the platform forward-kinematics input
`forward_kinematics_platform_fn(params, q, segment_idx)`. -/
abbrev FkPlatform : Type := GeometryParams → List ℚ → ℕ → Pose

/-- The vmapped backbone evaluator: one pose per arc-length sample, in
sample order. -/
def batched_fk_virtual_backbone (f : FkCurve) (params : GeometryParams)
    (q : List ℚ) (s_ps : List ℚ) : List Pose :=
  s_ps.map (f params q)

/-- The vmapped rod evaluator: one pose per arc-length sample for a fixed rod
index, in sample order. -/
def batched_fk_rod (f : FkRod) (params : GeometryParams) (q : List ℚ)
    (s_ps : List ℚ) (rod_idx : ℕ) : List Pose :=
  s_ps.map (fun s => f params q s rod_idx)

/-- The vmapped platform evaluator: one pose per segment index
(`jnp.arange(0, num_segments)`), in index order. -/
def batched_fk_platform (f : FkPlatform) (params : GeometryParams) (q : List ℚ)
    (num_segments : ℕ) : List Pose :=
  (List.range num_segments).map (f params q)

/-- The curve-extension step repeated verbatim for the virtual backbone and
both rods in `draw_robot_fn`: prepend the first sampled pose minus
`(0, lpc[0], 0)` (the proximal cap) and append the last sampled pose plus
`(-sin(theta_last) * ldc[-1], cos(theta_last) * ldc[-1], theta_last)` (the
distal cap).  The empty case never arises in the source because the sample
vector is nonempty. -/
def extendCurve (rsin rcos : ℚ → ℚ) (lpc0 ldcl : ℚ) : List Pose → List Pose
  | [] => []
  | p :: ps =>
    let lastp := (p :: ps).getLast (List.cons_ne_nil p ps)
    let capProx : Pose := ⟨p.x - 0, p.y - lpc0, p.theta - 0⟩
    let capDist : Pose :=
      ⟨lastp.x + -rsin lastp.theta * ldcl,
       lastp.y + rcos lastp.theta * ldcl,
       lastp.theta + lastp.theta⟩
    (capProx :: p :: ps) ++ [capDist]

/-- Extended virtual-backbone curve of one frame (computed in the source, its
projection commented out). -/
def extendedBackboneCurve (f : FkCurve) (rsin rcos : ℚ → ℚ)
    (params : GeometryParams) (s_ps : List ℚ) (q : List ℚ) : List Pose :=
  extendCurve rsin rcos params.lpc.headI (params.ldc.getLastD 0)
    (batched_fk_virtual_backbone f params q s_ps)

/-- Extended rod curve of one frame for rod index 0 (left) or 1 (right). -/
def extendedRodCurve (f : FkRod) (rsin rcos : ℚ → ℚ)
    (params : GeometryParams) (s_ps : List ℚ) (q : List ℚ)
    (rod_idx : ℕ) : List Pose :=
  extendCurve rsin rcos params.lpc.headI (params.ldc.getLastD 0)
    (batched_fk_rod f params q s_ps rod_idx)

/-- Rotation of a 2-vector by the platform orientation angle: the
`platform_R @ v` product of the source. -/
def rot2 (rsin rcos : ℚ → ℚ) (th : ℚ) (v : ℚ × ℚ) : ℚ × ℚ :=
  (rcos th * v.1 - rsin th * v.2, rsin th * v.1 + rcos th * v.2)

/-- Platform footprint polygon of one segment: lower-left, upper-left,
upper-right, lower-right corners, each offset by half the platform
width/height in the platform's local rotated frame, closed by repeating the
lower-left corner. -/
def platformCurve (rsin rcos : ℚ → ℚ) (chip : Pose) (dim : ℚ × ℚ) :
    List (ℚ × ℚ) :=
  let llc := (chip.x + (rot2 rsin rcos chip.theta (-(dim.1 / 2), -(dim.2 / 2))).1,
              chip.y + (rot2 rsin rcos chip.theta (-(dim.1 / 2), -(dim.2 / 2))).2)
  let ulc := (chip.x + (rot2 rsin rcos chip.theta (-(dim.1 / 2), dim.2 / 2)).1,
              chip.y + (rot2 rsin rcos chip.theta (-(dim.1 / 2), dim.2 / 2)).2)
  let urc := (chip.x + (rot2 rsin rcos chip.theta (dim.1 / 2, dim.2 / 2)).1,
              chip.y + (rot2 rsin rcos chip.theta (dim.1 / 2, dim.2 / 2)).2)
  let lrc := (chip.x + (rot2 rsin rcos chip.theta (dim.1 / 2, -(dim.2 / 2))).1,
              chip.y + (rot2 rsin rcos chip.theta (dim.1 / 2, -(dim.2 / 2))).2)
  [llc, ulc, urc, lrc, llc]

/-- JAX-style array row retrieval: out-of-bounds gather indices on a
non-empty axis are clamped to the last valid index (`jnp.arange(10)[11]`
evaluates to `9`); only indexing a size-0 axis raises.  `params` holds JAX
arrays, so `params["pcudim"][i]` with `i` past the end silently reuses the
last row. -/
def clampGet {α : Type} (l : List α) (i : ℕ) (d : α) : α :=
  l.getD (min i (l.length - 1)) d

/-- Scene primitive: one OpenCV drawing call of `draw_robot_fn`, with the
arguments the source passes (thickness -1 means filled). -/
inductive DrawOp where
  | fillPoly (pts : List (ℤ × ℤ)) (color : Color)
  | polylines (pts : List (ℤ × ℤ)) (isClosed : Bool) (color : Color)
      (thickness : ℕ)
  | circle (center : ℤ × ℤ) (radius : ℕ) (color : Color) (thickness : ℤ)
  | rectangle (pt1 pt2 : ℤ × ℤ) (color : Color) (thickness : ℤ)
  | arrowedLine (pt1 pt2 : ℤ × ℤ) (color : Color) (thickness : ℕ)
      (tipLength : ℚ)
deriving DecidableEq, Repr, Inhabited

/-- Result of one `draw_robot_fn` call: the freshly allocated buffer shape
(`onp.zeros((w, h, 3))` in the source), its background fill color, the ordered
list of drawing calls painted onto it, and the chronological log of every
Cartesian point handed to the pixel projector during the call. -/
structure RenderFrame where
  shape : ℕ × ℕ × ℕ
  background : Color
  ops : List DrawOp
  projLog : List (ℚ × ℚ)
deriving DecidableEq, Repr, Inhabited

/-- Platform drawing section of `draw_robot_fn`: one filled polygon per
segment, iterating segments in index order.  The pose lookup is always in
range (`chip_ps` has exactly `num_segments` entries), while the
platform-dimension row lookup follows JAX's clamped gather semantics, so a
`pcudim` array with too few rows silently reuses its last row. -/
def platformOps (rsin rcos : ℚ → ℚ) (prj : ℚ × ℚ → ℤ × ℤ)
    (chip_ps : List Pose) (pcudim : List (ℚ × ℚ)) (col : Color)
    (num_segments : ℕ) : List DrawOp :=
  (List.range num_segments).map (fun i =>
    DrawOp.fillPoly
      ((platformCurve rsin rcos (chip_ps.getD i default)
        (clampGet pcudim i (0, 0))).map prj) col)

/-- The per-frame Scene Composer `draw_robot_fn`.  `none` models a Python
exception during the frame, which the JAX arrays raise only for size-0-axis
indexing: an empty `lpc`/`ldc` array (cap indexing), an empty sample vector
(curve extension indexing), or an empty `pcudim` array with at least one
segment to draw.  A merely too-short nonempty `pcudim` does not raise: JAX
clamps the out-of-bounds row index, the last row is silently reused and the
frame completes. -/
def draw_robot_fn (fk_ee : FkEe) (fk_vb : FkCurve) (fk_rod : FkRod)
    (fk_pl : FkPlatform) (rsin rcos : ℚ → ℚ) (params : GeometryParams)
    (c : RendererCache) (q : List ℚ) (chiee_des chiee_at : Option Pose)
    (active_attraction_axis : ℤ) : Option RenderFrame :=
  if params.lpc = [] ∨ params.ldc = [] ∨ c.s_ps = [] ∨
      (params.pcudim = [] ∧ 0 < c.num_segments) then
    none
  else
    let pal := c.palette
    let prj := p2u c.ppm c.inverted_coordinates c.uv_robot_origin
    -- poses of the platforms
    let chip_ps := batched_fk_platform fk_pl params q c.num_segments
    -- the operational workspace, re-projected to pixels on every call
    let wsPts : List (ℚ × ℚ) := c.ws_boundary_ps.getD []
    let wsOps : List DrawOp :=
      match c.ws_boundary_ps with
      | some b => [DrawOp.fillPoly (b.map prj) pal.ws_background]
      | none => []
    -- the virtual backbone is sampled and extended like the rods but its
    -- polyline call is commented out in the source, so it emits no DrawOp
    let _chiv_ps := extendedBackboneCurve fk_vb rsin rcos params c.s_ps q
    let chiL_ps := extendedRodCurve fk_rod rsin rcos params c.s_ps q 0
    let chiR_ps := extendedRodCurve fk_rod rsin rcos params c.s_ps q 1
    let rodOps : List DrawOp :=
      [DrawOp.polylines (chiL_ps.map (fun chi => prj (chi.x, chi.y)))
        false pal.rod 18,
       DrawOp.polylines (chiR_ps.map (fun chi => prj (chi.x, chi.y)))
        false pal.rod 18]
    let pltOps := platformOps rsin rcos prj chip_ps params.pcudim pal.platform
      c.num_segments
    let setpointOps : List DrawOp :=
      match chiee_des with
      | some d => [DrawOp.circle (prj (d.x, d.y)) 16 pal.setpoint (-1)]
      | none => []
    let attractorOps : List DrawOp :=
      match chiee_at with
      | some a =>
        let s := prj (a.x, a.y)
        [DrawOp.rectangle (s.1 - 13, s.2 - 13) (s.1 + 13, s.2 + 13)
          pal.attractor (-1)]
      | none => []
    let eeOps : List DrawOp :=
      if chiee_des.isSome || chiee_at.isSome then
        let e := fk_ee params q
        [DrawOp.circle (prj (e.x, e.y)) 11 pal.end_effector (-1)]
      else []
    let arrowOps : List DrawOp :=
      if active_attraction_axis = 0 then
        [DrawOp.arrowedLine (25, 25) (25 + 15, 25)
          pal.active_attraction_axis 3 (3 / 10),
         DrawOp.arrowedLine (25, 25) (25 - 15, 25)
          pal.active_attraction_axis 3 (3 / 10)]
      else if active_attraction_axis = 1 then
        [DrawOp.arrowedLine (25, 25) (25, 25 + 15)
          pal.active_attraction_axis 3 (3 / 10),
         DrawOp.arrowedLine (25, 25) (25, 25 - 15)
          pal.active_attraction_axis 3 (3 / 10)]
      else []
    let projLog : List (ℚ × ℚ) :=
      wsPts
      ++ chiL_ps.map (fun chi => (chi.x, chi.y))
      ++ chiR_ps.map (fun chi => (chi.x, chi.y))
      ++ ((List.range c.num_segments).map (fun i =>
            platformCurve rsin rcos (chip_ps.getD i default)
              (clampGet params.pcudim i (0, 0)))).flatten
      ++ (match chiee_des with | some d => [(d.x, d.y)] | none => [])
      ++ (match chiee_at with | some a => [(a.x, a.y)] | none => [])
      ++ (if chiee_des.isSome || chiee_at.isSome then
            [((fk_ee params q).x, (fk_ee params q).y)] else [])
    some
      { shape := (c.width, c.height, 3)
        background := pal.background
        ops := wsOps ++ rodOps ++ pltOps ++ setpointOps ++ attractorOps
          ++ eeOps ++ arrowOps
        projLog := projLog }

/-- Projector written from the spec's words for comparison with the source's
`chi2u`: identical except that the spec says the scaled position is rounded to
the nearest integer, where the source's int32 cast truncates toward zero. -/
def chi2u_specRounded (ppm : ℚ) (inverted_coordinates : Bool) (origin : ℤ × ℤ)
    (chi : Pose) : ℤ × ℤ :=
  let u_off := round (chi.x * ppm)
  let v_off := round (chi.y * ppm)
  let off : ℤ × ℤ :=
    if inverted_coordinates then (-u_off, v_off) else (u_off, -v_off)
  (origin.1 + off.1, origin.2 + off.2)

/-- Raster buffer shape written from the spec's words for comparison: one
consistent row-major convention, height by width by channels. -/
def specRasterShape (width height : ℕ) : ℕ × ℕ × ℕ :=
  (height, width, 3)

/-- Concrete workspace-boundary provider used by witnesses: two boundary
points each for the min and max curves. -/
def wsProvider0 : ℕ → Bool → List (ℚ × ℚ) × List (ℚ × ℚ) :=
  fun _ _ => ([(0, 0), (1, 0)], [(1, 1), (0, 1)])

/-- Concrete consistent two-segment geometry used by witnesses. -/
def params0 : GeometryParams :=
  { l := [23 / 100, 23 / 100]
    lpc := [1 / 100, 1 / 100]
    ldc := [1 / 100, 1 / 100]
    pcudim := [(5 / 100, 2 / 100), (5 / 100, 2 / 100)]
    chiee_off := (0, 0) }

/-- Concrete two-segment geometry whose platform-dimension array has only one
row: the platform-dimension segment count differs from the segment count. -/
def paramsBad : GeometryParams :=
  { l := [23 / 100, 23 / 100]
    lpc := [1 / 100, 1 / 100]
    ldc := [1 / 100, 1 / 100]
    pcudim := [(5 / 100, 2 / 100)]
    chiee_off := (0, 0) }

/-- Concrete end-effector forward kinematics used by witnesses. -/
def fkEe0 : FkEe := fun _ _ => ⟨0, 1 / 2, 0⟩

/-- Concrete virtual-backbone forward kinematics used by witnesses. -/
def fkVb0 : FkCurve := fun _ _ s => ⟨0, s, 0⟩

/-- Concrete rod forward kinematics used by witnesses. -/
def fkRod0 : FkRod := fun _ _ s _ => ⟨0, s, 0⟩

/-- Concrete platform forward kinematics used by witnesses. -/
def fkPl0 : FkPlatform := fun _ _ i => ⟨0, (i : ℚ) / 4, 0⟩

/-- Stand-in sine used by witnesses (theorems quantify over it). -/
def rsin0 : ℚ → ℚ := fun _ => 0

/-- Stand-in cosine used by witnesses (theorems quantify over it). -/
def rcos0 : ℚ → ℚ := fun _ => 1

/-- Extract the cache from a factory result, with a default for the error
case; used to state closed witnesses without writing the cache out. -/
def cacheOf (r : Option RendererCache) : RendererCache :=
  r.getD default

/-- Predicate selecting the annotation marker primitives (filled circles and
the attractor square) among the scene primitives of a frame. -/
def isMarkerOp : DrawOp → Bool
  | DrawOp.circle _ _ _ _ => true
  | DrawOp.rectangle _ _ _ _ => true
  | _ => false

/-- Concrete renderer cache used by witnesses that do not involve the
factory: zero segments, one arc-length sample, no workspace overlay. -/
def cache0 : RendererCache :=
  { num_segments := 0
    ppm := 10
    palette := normalPalette
    inverted_coordinates := false
    width := 640
    height := 480
    uv_robot_origin := (320, 480)
    s_ps := [0]
    ws_boundary_ps := none }

/-- Helper: the last element of a list extended by one element on the right. -/
theorem getLastD_append_singleton {α : Type} (l : List α) (x d : α) :
    (l ++ [x]).getLastD d = x := by
  simp

/-- Helper: the extension step turns an `n`-point curve into an `n + 2`-point
curve. -/
theorem extendCurve_length (rsin rcos : ℚ → ℚ) (lpc0 ldcl : ℚ)
    (xs : List Pose) (h : xs ≠ []) :
    (extendCurve rsin rcos lpc0 ldcl xs).length = xs.length + 2 := by
  cases xs with
  | nil => exact absurd rfl h
  | cons p ps => simp [extendCurve]

/-- Helper: unfolded form of the extension step on a nonempty curve. -/
theorem extendCurve_cons (rsin rcos : ℚ → ℚ) (lpc0 ldcl : ℚ) (p : Pose)
    (ps : List Pose) :
    extendCurve rsin rcos lpc0 ldcl (p :: ps) =
      (⟨p.x - 0, p.y - lpc0, p.theta - 0⟩ :: p :: ps) ++
        [⟨((p :: ps).getLastD default).x
            + -rsin ((p :: ps).getLastD default).theta * ldcl,
          ((p :: ps).getLastD default).y
            + rcos ((p :: ps).getLastD default).theta * ldcl,
          ((p :: ps).getLastD default).theta
            + ((p :: ps).getLastD default).theta⟩] := by
  simp only [extendCurve]
  rw [List.getLast_eq_getLastD, List.getLastD_cons]

/-- Helper: the platform section contributes no marker primitive. -/
theorem platformOps_filter_markers (rsin rcos : ℚ → ℚ) (prj : ℚ × ℚ → ℤ × ℤ)
    (chip_ps : List Pose) (pcu : List (ℚ × ℚ)) (col : Color) (n : ℕ) :
    (platformOps rsin rcos prj chip_ps pcu col n).filter isMarkerOp = [] := by
  unfold platformOps
  simp [isMarkerOp]

/-- Helper: broadcasting two arrays of equal length keeps that length. -/
theorem broadcastLen_self (n : ℕ) : broadcastLen n n = some n := by
  unfold broadcastLen
  simp

/-- Helper: stretching an array to its own length changes nothing observable
about its length. -/
theorem bcastTo_length (xs : List ℚ) (n : ℕ) (h : xs.length = n) :
    (bcastTo xs n).length = n := by
  unfold bcastTo
  split
  · simp
  · exact h

/-- Helper: elementwise addition of equal-length arrays succeeds and keeps
the length. -/
theorem addBroadcast_of_length_eq (xs ys : List ℚ)
    (h : xs.length = ys.length) :
    ∃ zs, addBroadcast xs ys = some zs ∧ zs.length = ys.length := by
  refine ⟨List.zipWith (fun a b => a + b) (bcastTo xs ys.length)
    (bcastTo ys ys.length), ?_, ?_⟩
  · unfold addBroadcast
    rw [h, broadcastLen_self]
  · rw [List.length_zipWith, bcastTo_length xs ys.length h,
      bcastTo_length ys ys.length rfl, Nat.min_self]

/-- Helper: JAX clamped retrieval past the end of a nonempty array returns
its last row. -/
theorem clampGet_past_end {α : Type} (l : List α) (i : ℕ) (d : α)
    (h : l.length ≤ i) : clampGet l i d = l.getLastD d := by
  unfold clampGet
  rw [show min i (l.length - 1) = l.length - 1 by omega,
    List.getD_eq_getElem?_getD, List.getLastD_eq_getLast?,
    List.getLast?_eq_getElem?]

/-- C1 (amended): the factory performs no consistency check between the
platform-dimension array and the segment count.  Whenever the cap/segment
length arrays entering the pixels-per-meter sum have matching lengths (the
only shape constraint its body enforces, via NumPy broadcasting),
construction succeeds and a Composer is returned regardless of `pcudim`.
Nor does a platform-dimension count smaller than the (nonzero) segment count
fail at render time: the frame completes, and the out-of-range
platform-dimension lookups are clamped to the last row of the array — the
silent padding the spec forbids. -/
theorem C1_factory_skips_segment_count_check {Mat : Type}
    (provider : Mat → Bool → List (ℚ × ℚ) × List (ℚ × ℚ)) (mat : Mat)
    (params : GeometryParams) (w h np : ℕ) (ic ivc dws : Bool)
    (fke : FkEe) (fkv : FkCurve) (fkr : FkRod) (fkp : FkPlatform)
    (rsin rcos : ℚ → ℚ) (q : List ℚ) (des att : Option Pose) (ax : ℤ)
    (h1 : params.lpc.length = params.l.length)
    (h2 : params.ldc.length = params.l.length) :
    (robot_rendering_factory provider mat params w h np ic ivc dws).isSome
      = true ∧
    (∀ cache,
      robot_rendering_factory provider mat params w h np ic ivc dws
        = some cache →
      params.lpc ≠ [] → params.ldc ≠ [] → cache.s_ps ≠ [] →
      params.pcudim ≠ [] →
      ∃ f, draw_robot_fn fke fkv fkr fkp rsin rcos params cache q des att ax
        = some f) ∧
    (∀ i, params.pcudim ≠ [] → params.pcudim.length ≤ i →
      clampGet params.pcudim i (0, 0) = params.pcudim.getLastD (0, 0)) := by
  obtain ⟨s1, hs1, hl1⟩ := addBroadcast_of_length_eq params.lpc params.l h1
  obtain ⟨s2, hs2, _⟩ :=
    addBroadcast_of_length_eq s1 params.ldc (hl1.trans h2.symm)
  have hbind : (addBroadcast params.lpc params.l).bind
      (fun s => addBroadcast s params.ldc) = some s2 := by
    rw [hs1, Option.some_bind, hs2]
  refine ⟨?_, ?_, ?_⟩
  · unfold robot_rendering_factory
    rw [hbind]
    rfl
  · intro cache _ hA hB hC hD
    have hcond : ¬(params.lpc = [] ∨ params.ldc = [] ∨ cache.s_ps = [] ∨
        (params.pcudim = [] ∧ 0 < cache.num_segments)) := by
      rintro (hn | hn | hn | ⟨hn, _⟩)
      · exact hA hn
      · exact hB hn
      · exact hC hn
      · exact hD hn
    unfold draw_robot_fn
    rw [if_neg hcond]
    exact ⟨_, rfl⟩
  · intro i _ hle
    exact clampGet_past_end params.pcudim i (0, 0) hle

/-- C1 (counterexample): a geometry whose platform-dimension array has one
row while there are two segments is accepted by the factory, which returns a
Composer instead of failing with a configuration error, and the Composer then
renders a complete frame from it. -/
theorem C1_counterexample :
    paramsBad.pcudim.length ≠ paramsBad.l.length ∧
    (robot_rendering_factory wsProvider0 0 paramsBad 640 480 25
      false false false).isSome = true ∧
    ((robot_rendering_factory wsProvider0 0 paramsBad 640 480 25
        false false false).bind
      (fun cache => draw_robot_fn fkEe0 fkVb0 fkRod0 fkPl0 rsin0 rcos0
        paramsBad cache [0, 0, 0] none none (-1))).isSome = true := by
  exact ⟨by decide, rfl, rfl⟩

/-- C1 witness: the amended theorem applied to the concrete mismatched
geometry. -/
theorem C1_witness :
    paramsBad.lpc.length = paramsBad.l.length ∧
    paramsBad.ldc.length = paramsBad.l.length ∧
    ((robot_rendering_factory wsProvider0 0 paramsBad 640 480 25
        false false true).isSome = true ∧
     (∀ cache,
       robot_rendering_factory wsProvider0 0 paramsBad 640 480 25
         false false true = some cache →
       paramsBad.lpc ≠ [] → paramsBad.ldc ≠ [] → cache.s_ps ≠ [] →
       paramsBad.pcudim ≠ [] →
       ∃ f, draw_robot_fn fkEe0 fkVb0 fkRod0 fkPl0 rsin0 rcos0 paramsBad
         cache [0, 0, 0] none none (-1) = some f) ∧
     (∀ i, paramsBad.pcudim ≠ [] → paramsBad.pcudim.length ≤ i →
       clampGet paramsBad.pcudim i (0, 0)
         = paramsBad.pcudim.getLastD (0, 0))) :=
  ⟨rfl, rfl,
    C1_factory_skips_segment_count_check wsProvider0 0 paramsBad 640 480 25
      false false true fkEe0 fkVb0 fkRod0 fkPl0 rsin0 rcos0 [0, 0, 0]
      none none (-1) rfl rfl⟩

/-- C3 (code bug): for canvas width 640 and height 480 the Composer's pixel
buffer is allocated with shape `(width, height, 3)` — `onp.zeros((w, h, 3))`
in the source — while the origin-offset computation treats the canvas as
width columns by height rows; this differs from the consistent row-major
`(height, width, 3)` convention the spec mandates. -/
theorem C3_buffer_allocated_with_swapped_dimensions :
    ((robot_rendering_factory wsProvider0 0 params0 640 480 3
        false false false).bind
      (fun cache => draw_robot_fn fkEe0 fkVb0 fkRod0 fkPl0 rsin0 rcos0
        params0 cache [0, 0, 0] none none (-1))).map (fun f => f.shape)
      = some (640, 480, 3) ∧
    (640, 480, 3) ≠ specRasterShape 640 480 := by
  exact ⟨rfl, by decide⟩

/-- C4 (amended): the projector keeps only the position components of a pose,
multiplies them by pixels-per-meter and truncates toward zero (the int32
cast), negates exactly one pixel offset — the horizontal one when the
inverted-coordinates flag is set, otherwise the vertical one — and adds the
flag-dependent origin; consequently toggling the flag changes both pixel
axes (the horizontal offset flips sign around `w / 2` and the vertical
mapping changes from `h - t` to `t`); orientation is ignored, and the batched
form applies the mapping independently and order-preservingly. -/
theorem C4_projection_truncates_and_flag_changes_both_axes (ppm : ℚ)
    (w h : ℕ) (chi : Pose) (b : Bool) (o : ℤ × ℤ) (x y t u : ℚ)
    (ps : List Pose) :
    chi2u ppm false (uv_robot_origin false w h) chi
      = (((w / 2 : ℕ) : ℤ) + truncToZero (chi.x * ppm),
         (h : ℤ) - truncToZero (chi.y * ppm)) ∧
    chi2u ppm true (uv_robot_origin true w h) chi
      = (((w / 2 : ℕ) : ℤ) - truncToZero (chi.x * ppm),
         truncToZero (chi.y * ppm)) ∧
    chi2u ppm b o ⟨x, y, t⟩ = chi2u ppm b o ⟨x, y, u⟩ ∧
    batched_chi2u ppm b o ps = ps.map (chi2u ppm b o) := by
  refine ⟨?_, ?_, rfl, rfl⟩ <;>
    simp [chi2u, p2u, uv_robot_origin, sub_eq_add_neg]

/-- C4 (counterexample): at `ppm = 10` the pose `(7/100, 0, 0)` projects to
horizontal pixel `320 + 0` (truncation of `0.7`), not the `320 + 1` that
rounding to nearest would give; and toggling the inverted-coordinates flag
(with its matching origin for `w = 640`, `h = 480`) changes both the
horizontal and the vertical pixel coordinate of the pose `(3/10, 1/2, 0)`,
not exactly one of them. -/
theorem C4_counterexample :
    chi2u 10 false (320, 480) ⟨7 / 100, 0, 0⟩
        ≠ chi2u_specRounded 10 false (320, 480) ⟨7 / 100, 0, 0⟩ ∧
    (chi2u 10 false (320, 480) ⟨3 / 10, 1 / 2, 0⟩).1
        ≠ (chi2u 10 true (320, 0) ⟨3 / 10, 1 / 2, 0⟩).1 ∧
    (chi2u 10 false (320, 480) ⟨3 / 10, 1 / 2, 0⟩).2
        ≠ (chi2u 10 true (320, 0) ⟨3 / 10, 1 / 2, 0⟩).2 := by
  refine ⟨?_, ?_, ?_⟩ <;>
    norm_num [chi2u, chi2u_specRounded, p2u, truncToZero, round_eq,
      Prod.ext_iff]

/-- C2 (amended): when the workspace overlay is enabled the factory computes
the boundary polygon once, in Cartesian coordinates (min boundary followed by
the reversed max boundary), and stores it immutably in the closed-over cache;
but the projection of that polygon to pixel coordinates is not performed at
construction — every frame re-projects the cached Cartesian polygon through
the pixel projector (its points are the first entries handed to the projector
on every call) before filling it. -/
theorem C2_ws_polygon_cached_cartesian_reprojected_per_frame {Mat : Type}
    (provider : Mat → Bool → List (ℚ × ℚ) × List (ℚ × ℚ)) (mat : Mat)
    (params : GeometryParams) (w h np : ℕ) (ic ivc : Bool)
    (fke : FkEe) (fkv : FkCurve) (fkr : FkRod) (fkp : FkPlatform)
    (rsin rcos : ℚ → ℚ) (q : List ℚ) (des att : Option Pose) (ax : ℤ)
    (cache : RendererCache)
    (hf : robot_rendering_factory provider mat params w h np ic ivc true
      = some cache)
    (h1 : params.lpc ≠ []) (h2 : params.ldc ≠ []) (h3 : cache.s_ps ≠ [])
    (h4 : cache.num_segments ≤ params.pcudim.length) :
    cache.ws_boundary_ps = some (wsPolygon provider mat params) ∧
    ∃ f, draw_robot_fn fke fkv fkr fkp rsin rcos params cache q des att ax
        = some f ∧
      f.projLog.take (wsPolygon provider mat params).length
        = wsPolygon provider mat params ∧
      f.ops.headI = DrawOp.fillPoly ((wsPolygon provider mat params).map
        (p2u cache.ppm cache.inverted_coordinates cache.uv_robot_origin))
        cache.palette.ws_background := by
  have hws : cache.ws_boundary_ps = some (wsPolygon provider mat params) := by
    unfold robot_rendering_factory at hf
    cases hm : (addBroadcast params.lpc params.l).bind
        (fun s => addBroadcast s params.ldc) with
    | none =>
      rw [hm] at hf
      exact absurd hf (by simp)
    | some total =>
      rw [hm] at hf
      have hrec := Option.some.inj hf
      rw [← hrec]
      simp
  have hcond : ¬(params.lpc = [] ∨ params.ldc = [] ∨ cache.s_ps = [] ∨
      (params.pcudim = [] ∧ 0 < cache.num_segments)) := by
    rintro (hA | hB | hC | ⟨hD, hpos⟩)
    · exact h1 hA
    · exact h2 hB
    · exact h3 hC
    · rw [hD] at h4
      simp at h4
      omega
  refine ⟨hws, ?_⟩
  unfold draw_robot_fn
  rw [if_neg hcond]
  refine ⟨_, rfl, ?_, ?_⟩
  · simp only [hws, Option.getD_some, List.append_assoc]
    exact List.take_left _ _
  · simp only [hws, List.append_assoc]
    rfl

/-- C2 (counterexample): in a concrete overlay-enabled renderer, the four
cached Cartesian boundary points are handed to the pixel projector again
inside the frame call itself — the first four entries of the frame's
projector log are exactly the cached boundary polygon, refuting that the
polygon is projected only once at construction and never re-projected per
frame. -/
theorem C2_counterexample :
    ((robot_rendering_factory wsProvider0 0 params0 640 480 3
        false false true).bind
      (fun cache => draw_robot_fn fkEe0 fkVb0 fkRod0 fkPl0 rsin0 rcos0
        params0 cache [0, 0, 0] none none (-1))).map
      (fun f => f.projLog.take 4)
      = some [(0, 0), (1, 0), (0, 1), (1, 1)] := by
  rfl

/-- C2 witness: the amended theorem applied to the concrete overlay-enabled
renderer. -/
theorem C2_witness :
    (cacheOf (robot_rendering_factory wsProvider0 0 params0 640 480 3
        false false true)).ws_boundary_ps
      = some (wsPolygon wsProvider0 0 params0) ∧
    ∃ f, draw_robot_fn fkEe0 fkVb0 fkRod0 fkPl0 rsin0 rcos0 params0
        (cacheOf (robot_rendering_factory wsProvider0 0 params0 640 480 3
          false false true)) [0, 0, 0] none none (-1) = some f ∧
      f.projLog.take (wsPolygon wsProvider0 0 params0).length
        = wsPolygon wsProvider0 0 params0 ∧
      f.ops.headI = DrawOp.fillPoly ((wsPolygon wsProvider0 0 params0).map
        (p2u (cacheOf (robot_rendering_factory wsProvider0 0 params0 640 480 3
            false false true)).ppm
          (cacheOf (robot_rendering_factory wsProvider0 0 params0 640 480 3
            false false true)).inverted_coordinates
          (cacheOf (robot_rendering_factory wsProvider0 0 params0 640 480 3
            false false true)).uv_robot_origin))
        (cacheOf (robot_rendering_factory wsProvider0 0 params0 640 480 3
          false false true)).palette.ws_background :=
  C2_ws_polygon_cached_cartesian_reprojected_per_frame wsProvider0 0 params0
    640 480 3 false false fkEe0 fkVb0 fkRod0 fkPl0 rsin0 rcos0 [0, 0, 0]
    none none (-1)
    (cacheOf (robot_rendering_factory wsProvider0 0 params0 640 480 3
      false false true))
    rfl (by decide) (by decide) (by decide) (by decide)

/-- C5: the extension step prepends the first sampled pose with its position
moved backward along the longitudinal axis by the proximal-cap length, and
appends the last sampled pose with its position offset by
`(-sin(theta_last) * ldc, cos(theta_last) * ldc)`. -/
theorem C5_cap_extension_endpoints (rsin rcos : ℚ → ℚ) (lpc0 ldcl : ℚ)
    (p : Pose) (ps : List Pose) :
    (extendCurve rsin rcos lpc0 ldcl (p :: ps)).headI
      = ⟨p.x, p.y - lpc0, p.theta⟩ ∧
    ((extendCurve rsin rcos lpc0 ldcl (p :: ps)).getLastD default).x
      = ((p :: ps).getLastD default).x
        - rsin ((p :: ps).getLastD default).theta * ldcl ∧
    ((extendCurve rsin rcos lpc0 ldcl (p :: ps)).getLastD default).y
      = ((p :: ps).getLastD default).y
        + rcos ((p :: ps).getLastD default).theta * ldcl := by
  rw [extendCurve_cons, getLastD_append_singleton]
  refine ⟨by simp, by simp [sub_eq_add_neg], by simp⟩

/-- C6: for sample count `n + 1`, each of the three extended curves produced
per frame (virtual backbone, left rod, right rod) has exactly
`num_points + 2` entries. -/
theorem C6_extended_curves_have_num_points_plus_two (fkv : FkCurve)
    (fkr : FkRod) (rsin rcos : ℚ → ℚ) (params : GeometryParams) (q : List ℚ)
    (L : ℚ) (n : ℕ) :
    (extendedBackboneCurve fkv rsin rcos params (linspace 0 L (n + 1)) q).length
      = (n + 1) + 2 ∧
    (extendedRodCurve fkr rsin rcos params (linspace 0 L (n + 1)) q 0).length
      = (n + 1) + 2 ∧
    (extendedRodCurve fkr rsin rcos params (linspace 0 L (n + 1)) q 1).length
      = (n + 1) + 2 := by
  have h1 : ∀ g : ℚ → Pose, ((linspace 0 L (n + 1)).map g).length = n + 1 := by
    intro g
    rw [List.length_map, linspace, List.length_map, List.length_range]
  have h2 : ∀ g : ℚ → Pose, (linspace 0 L (n + 1)).map g ≠ [] := by
    intro g
    apply List.ne_nil_of_length_pos
    rw [h1]
    omega
  refine ⟨?_, ?_, ?_⟩
  · unfold extendedBackboneCurve batched_fk_virtual_backbone
    rw [extendCurve_length _ _ _ _ _ (h2 _), h1]
  · unfold extendedRodCurve batched_fk_rod
    rw [extendCurve_length _ _ _ _ _ (h2 _), h1]
  · unfold extendedRodCurve batched_fk_rod
    rw [extendCurve_length _ _ _ _ _ (h2 _), h1]

/-- C7: every platform polygon consists of the four corners offset by half
the platform width and half the platform height in the platform's local
rotated frame, closed by repeating the lower-left corner, so its first and
last vertices coincide; the platform section fills one solid polygon per
segment, iterating segments in index order. -/
theorem C7_platform_polygon_closed (rsin rcos : ℚ → ℚ) (chip : Pose)
    (dim : ℚ × ℚ) (prj : ℚ × ℚ → ℤ × ℤ) (chip_ps : List Pose)
    (pcu : List (ℚ × ℚ)) (col : Color) (n : ℕ) :
    platformCurve rsin rcos chip dim =
      [(chip.x + (rot2 rsin rcos chip.theta (-(dim.1 / 2), -(dim.2 / 2))).1,
        chip.y + (rot2 rsin rcos chip.theta (-(dim.1 / 2), -(dim.2 / 2))).2),
       (chip.x + (rot2 rsin rcos chip.theta (-(dim.1 / 2), dim.2 / 2)).1,
        chip.y + (rot2 rsin rcos chip.theta (-(dim.1 / 2), dim.2 / 2)).2),
       (chip.x + (rot2 rsin rcos chip.theta (dim.1 / 2, dim.2 / 2)).1,
        chip.y + (rot2 rsin rcos chip.theta (dim.1 / 2, dim.2 / 2)).2),
       (chip.x + (rot2 rsin rcos chip.theta (dim.1 / 2, -(dim.2 / 2))).1,
        chip.y + (rot2 rsin rcos chip.theta (dim.1 / 2, -(dim.2 / 2))).2),
       (chip.x + (rot2 rsin rcos chip.theta (-(dim.1 / 2), -(dim.2 / 2))).1,
        chip.y + (rot2 rsin rcos chip.theta (-(dim.1 / 2), -(dim.2 / 2))).2)] ∧
    (platformCurve rsin rcos chip dim).headI
      = (platformCurve rsin rcos chip dim).getLastD (0, 0) ∧
    (platformCurve rsin rcos chip dim).length = 5 ∧
    platformOps rsin rcos prj chip_ps pcu col n
      = (List.range n).map (fun i =>
          DrawOp.fillPoly
            ((platformCurve rsin rcos (chip_ps.getD i default)
              (clampGet pcu i (0, 0))).map prj) col) := by
  exact ⟨rfl, rfl, rfl, rfl⟩

/-- C8: each optional annotation element is drawn exactly when its field is
present and is skipped entirely otherwise: the marker primitives of a frame
are precisely one setpoint filled circle when the desired pose is present,
one attractor filled square when the attractor pose is present, and one
end-effector filled circle — drawn after (on top of) both — when at least one
of the two is present; in particular with only a setpoint the markers are
exactly one setpoint circle followed by one end-effector circle and no
square. -/
theorem C8_optional_markers_drawn_iff_present (fke : FkEe) (fkv : FkCurve)
    (fkr : FkRod) (fkp : FkPlatform) (rsin rcos : ℚ → ℚ)
    (params : GeometryParams) (c : RendererCache) (q : List ℚ)
    (des att : Option Pose) (ax : ℤ)
    (h1 : params.lpc ≠ []) (h2 : params.ldc ≠ []) (h3 : c.s_ps ≠ [])
    (h4 : c.num_segments ≤ params.pcudim.length) :
    ∃ f, draw_robot_fn fke fkv fkr fkp rsin rcos params c q des att ax
        = some f ∧
      f.ops.filter isMarkerOp =
        (match des with
         | some d => [DrawOp.circle
             (p2u c.ppm c.inverted_coordinates c.uv_robot_origin (d.x, d.y))
             16 c.palette.setpoint (-1)]
         | none => [])
        ++ (match att with
            | some a => [DrawOp.rectangle
                ((p2u c.ppm c.inverted_coordinates c.uv_robot_origin
                    (a.x, a.y)).1 - 13,
                 (p2u c.ppm c.inverted_coordinates c.uv_robot_origin
                    (a.x, a.y)).2 - 13)
                ((p2u c.ppm c.inverted_coordinates c.uv_robot_origin
                    (a.x, a.y)).1 + 13,
                 (p2u c.ppm c.inverted_coordinates c.uv_robot_origin
                    (a.x, a.y)).2 + 13)
                c.palette.attractor (-1)]
            | none => [])
        ++ (if des.isSome || att.isSome then
              [DrawOp.circle
                (p2u c.ppm c.inverted_coordinates c.uv_robot_origin
                  ((fke params q).x, (fke params q).y))
                11 c.palette.end_effector (-1)]
            else []) := by
  have hcond : ¬(params.lpc = [] ∨ params.ldc = [] ∨ c.s_ps = [] ∨
      (params.pcudim = [] ∧ 0 < c.num_segments)) := by
    rintro (hA | hB | hC | ⟨hD, hpos⟩)
    · exact h1 hA
    · exact h2 hB
    · exact h3 hC
    · rw [hD] at h4
      simp at h4
      omega
  unfold draw_robot_fn
  rw [if_neg hcond]
  refine ⟨_, rfl, ?_⟩
  cases hws : c.ws_boundary_ps <;> cases des <;> cases att <;>
    simp [isMarkerOp, platformOps_filter_markers,
      apply_ite (List.filter isMarkerOp)]

/-- C8 witness: with only a setpoint present, the markers of the concrete
frame are exactly one setpoint circle and one end-effector circle, and no
attractor square. -/
theorem C8_witness :
    params0.lpc ≠ [] ∧ params0.ldc ≠ [] ∧ cache0.s_ps ≠ [] ∧
    cache0.num_segments ≤ params0.pcudim.length ∧
    ∃ f, draw_robot_fn fkEe0 fkVb0 fkRod0 fkPl0 rsin0 rcos0 params0 cache0
        [0, 0, 0] (some ⟨1 / 10, 2 / 10, 0⟩) none (-1) = some f ∧
      f.ops.filter isMarkerOp =
        [DrawOp.circle
          (p2u cache0.ppm cache0.inverted_coordinates cache0.uv_robot_origin
            (1 / 10, 2 / 10)) 16 cache0.palette.setpoint (-1)]
        ++ []
        ++ [DrawOp.circle
          (p2u cache0.ppm cache0.inverted_coordinates cache0.uv_robot_origin
            ((fkEe0 params0 [0, 0, 0]).x, (fkEe0 params0 [0, 0, 0]).y))
          11 cache0.palette.end_effector (-1)] :=
  ⟨by decide, by decide, by decide, by decide,
    C8_optional_markers_drawn_iff_present fkEe0 fkVb0 fkRod0 fkPl0 rsin0
      rcos0 params0 cache0 [0, 0, 0] (some ⟨1 / 10, 2 / 10, 0⟩) none (-1)
      (by decide) (by decide) (by decide) (by decide)⟩

/-- C9: the Scene Composer is deterministic — with the same (pure) kinematics
functions and cache, two calls with equal configuration vectors and equal
(or equally absent) annotations return identical frames. -/
theorem C9_composer_deterministic (fke : FkEe) (fkv : FkCurve) (fkr : FkRod)
    (fkp : FkPlatform) (rsin rcos : ℚ → ℚ) (params : GeometryParams)
    (c : RendererCache) (q q2 : List ℚ) (des des2 att att2 : Option Pose)
    (ax ax2 : ℤ) (hq : q = q2) (hdes : des = des2) (hatt : att = att2)
    (hax : ax = ax2) :
    draw_robot_fn fke fkv fkr fkp rsin rcos params c q des att ax
      = draw_robot_fn fke fkv fkr fkp rsin rcos params c q2 des2 att2 ax2 := by
  rw [hq, hdes, hatt, hax]

/-- C9 witness: two identical concrete calls yield the same frame. -/
theorem C9_witness :
    draw_robot_fn fkEe0 fkVb0 fkRod0 fkPl0 rsin0 rcos0 params0 cache0
        [0, 0, 0] none none (-1)
      = draw_robot_fn fkEe0 fkVb0 fkRod0 fkPl0 rsin0 rcos0 params0 cache0
        [0, 0, 0] none none (-1) :=
  C9_composer_deterministic fkEe0 fkVb0 fkRod0 fkPl0 rsin0 rcos0 params0
    cache0 [0, 0, 0] [0, 0, 0] none none none none (-1) (-1) rfl rfl rfl rfl

/-- C10: the appended distal-cap entry of an extended curve carries
orientation `2 * theta_last` (the offset vector added to the last pose itself
contains `theta_last` as third component), the prepended proximal-cap entry
keeps the first sample's orientation, and the projector ignores the
orientation component, so pixel output is unaffected. -/
theorem C10_distal_cap_orientation_doubled (rsin rcos : ℚ → ℚ)
    (lpc0 ldcl : ℚ) (p : Pose) (ps : List Pose) (ppm : ℚ) (b : Bool)
    (o : ℤ × ℤ) (x y t u : ℚ) :
    ((extendCurve rsin rcos lpc0 ldcl (p :: ps)).getLastD default).theta
      = 2 * ((p :: ps).getLastD default).theta ∧
    ((extendCurve rsin rcos lpc0 ldcl (p :: ps)).headI).theta = p.theta ∧
    chi2u ppm b o ⟨x, y, t⟩ = chi2u ppm b o ⟨x, y, u⟩ := by
  rw [extendCurve_cons, getLastD_append_singleton]
  refine ⟨by rw [two_mul], by simp, rfl⟩

end HsaViz
